import Mathlib

/-!
Verification of the EMVO-style merchant QR payload codec implemented in
`src/components/ScannerPage.tsx` (the `EmvoQrGenerator` component).

Strings are modelled as `List Char` (JS strings are UTF-16 code-unit
sequences; every character appearing in this development lies in the BMP,
where code units and code points coincide).  JS numbers that can be
negative (`parseInt` results, indices in `parseTLV`) are modelled as `Int`;
the CRC accumulator, which is always masked to 16 bits, as `Nat`.
The unbounded `while` loops of `parseQrString` and `parseSubTLVs` are
modelled by a fuel-indexed loop `parseLoop`; `none` marks fuel exhaustion.
For a run of the JS loop that terminates, every index visited lies in the
integer interval `[-5, data.length)` and no index is visited twice (the
loop body is a function of the index alone up to the accumulator, so a
revisited index would repeat forever); hence `data.length + 8` units of
fuel suffice for every terminating run, and the fixed-fuel wrappers
`parseQrString` / `parseSubTLVs` agree with the source on every input on
which the source terminates.
-/

/-- Characters of a JS string, in order. -/
abbrev Str := List Char

/-- Convenience conversion from a Lean string literal to `Str`. -/
def str (s : String) : Str := s.data

/-- Digit character for a value below the base (lowercase for 10–15),
as produced by JS `Number.prototype.toString(base)`. -/
def digitChar (n : Nat) : Char :=
  if n < 10 then Char.ofNat (48 + n) else Char.ofNat (87 + n)

/-- Fuel-indexed base conversion; `fuel ≥ n` always suffices. -/
def natToBaseAux (b : Nat) : Nat → Nat → Str
  | 0, n => [digitChar n]
  | fuel + 1, n =>
    if n < b then [digitChar n]
    else natToBaseAux b fuel (n / b) ++ [digitChar (n % b)]

/-- JS `n.toString(b)` for a nonnegative integer `n` and base `b ≥ 2`. -/
def natToBase (b n : Nat) : Str := natToBaseAux b n n

/-- JS `String.prototype.padStart(len, c)`. -/
def padStart (s : Str) (len : Nat) (c : Char) : Str :=
  List.replicate (len - s.length) c ++ s

/-- Source `formatLength`: `length.toString().padStart(2, '0')`. -/
def formatLength (length : Nat) : Str := padStart (natToBase 10 length) 2 '0'

/-- Source `getEmvoLength`: JS `str.length`, a character count. -/
def getEmvoLength (s : Str) : Nat := s.length

/-- Source `createTLV`: `tag + formatLength(length) + value`.
Note: the source contains no length check of any kind. -/
def createTLV (tag value : Str) : Str :=
  tag ++ formatLength (getEmvoLength value) ++ value

/-- JS `a || b` for strings: `b` when `a` is empty (falsy), else `a`. -/
def jsOrStr (a b : Str) : Str := if a = [] then b else a

/-- Source `generateMerchantAccountInfo`:
`createTLV("00", merchantId) + createTLV("01", merchantId || "410790020044601")`. -/
def generateMerchantAccountInfo (merchantId : Str) : Str :=
  createTLV (str "00") merchantId ++
    createTLV (str "01") (jsOrStr merchantId (str "410790020044601"))

/-- The three sub-values of the additional-data composite (tag 64). -/
structure AdditionalData where
  d00 : Str
  d01 : Str
  d02 : Str
deriving DecidableEq

/-- Source `generateAdditionalDataTLV`: sub-tags 00, 01, 02 in order. -/
def generateAdditionalDataTLV (ad : AdditionalData) : Str :=
  createTLV (str "00") ad.d00 ++ createTLV (str "01") ad.d01 ++
    createTLV (str "02") ad.d02

/-- The `EmvoQrData` record (the source form state). -/
structure EmvoQrData where
  payloadFormatIndicator : Str
  pointOfInitiationMethod : Str
  merchantAccountInfo : Str
  merchantId : Str
  merchantCategoryCode : Str
  transactionCurrency : Str
  countryCode : Str
  merchantName : Str
  merchantCity : Str
  additionalData : AdditionalData
  crc : Str
deriving DecidableEq

/-- One round of the inner `for (j = 0; j < 8; j++)` loop of
`calculateCRC16`: conditional shift-xor, then `crc &= 0xFFFF`. -/
def crc16Round (crc : Nat) : Nat :=
  if crc &&& 0x8000 ≠ 0 then ((crc <<< 1) ^^^ 0x1021) &&& 0xFFFF
  else (crc <<< 1) &&& 0xFFFF

/-- The inner loop run `j` times. -/
def crc16Rounds : Nat → Nat → Nat
  | 0, c => c
  | j + 1, c => crc16Rounds j (crc16Round c)

/-- Body of the outer byte loop: `crc ^= bytes[i] << 8` then 8 rounds. -/
def crc16Byte (crc b : Nat) : Nat := crc16Rounds 8 (crc ^^^ (b <<< 8))

/-- The outer loop over all bytes. -/
def crc16Loop (crc : Nat) (bytes : List Nat) : Nat := bytes.foldl crc16Byte crc

/-- JS `String.prototype.toUpperCase` restricted to ASCII (the only
characters it is applied to here are hex digits). -/
def jsToUpper (c : Char) : Char :=
  if 'a' ≤ c ∧ c ≤ 'z' then Char.ofNat (c.toNat - 32) else c

/-- Rendering of the final accumulator:
`crc.toString(16).toUpperCase().padStart(4, '0')`. -/
def renderCRC (crc : Nat) : Str := padStart ((natToBase 16 crc).map jsToUpper) 4 '0'

/-- Source `calculateCRC16` after `TextEncoder` has produced the bytes:
accumulator starts at `0xFFFF`, then the byte loop, then rendering. -/
def calculateCRC16Bytes (bytes : List Nat) : Str := renderCRC (crc16Loop 0xFFFF bytes)

/-- UTF-8 encoding of one code point (what `TextEncoder` emits per
character; Lean `Char` carries a Unicode scalar value). -/
def utf8Char (c : Char) : List Nat :=
  let n := c.toNat
  if n < 0x80 then [n]
  else if n < 0x800 then [0xC0 + n / 64, 0x80 + n % 64]
  else if n < 0x10000 then [0xE0 + n / 4096, 0x80 + n / 64 % 64, 0x80 + n % 64]
  else [0xF0 + n / 262144, 0x80 + n / 4096 % 64, 0x80 + n / 64 % 64, 0x80 + n % 64]

/-- `new TextEncoder().encode(s)`. -/
def utf8Encode (s : Str) : List Nat := (s.map utf8Char).flatten

/-- Source `calculateCRC16` on a string input. -/
def calculateCRC16 (data : Str) : Str := calculateCRC16Bytes (utf8Encode data)

/-- Source `generateQrString`, restricted to the string it computes (the
`setQrString` argument): the nine top-level TLVs in fixed order, then the
CRC TLV computed over the body plus the literal `"6304"`. -/
def generateQrString (fd : EmvoQrData) : Str :=
  let merchantAccountInfo := generateMerchantAccountInfo fd.merchantId
  let additionalDataValue := generateAdditionalDataTLV fd.additionalData
  let qrWithoutCrc :=
    createTLV (str "00") fd.payloadFormatIndicator ++
    createTLV (str "01") fd.pointOfInitiationMethod ++
    createTLV (str "44") merchantAccountInfo ++
    createTLV (str "52") fd.merchantCategoryCode ++
    createTLV (str "53") fd.transactionCurrency ++
    createTLV (str "58") fd.countryCode ++
    createTLV (str "59") fd.merchantName ++
    createTLV (str "60") fd.merchantCity ++
    createTLV (str "64") additionalDataValue
  let crcInput := qrWithoutCrc ++ str "6304"
  let calculatedCrc := calculateCRC16 crcInput
  qrWithoutCrc ++ createTLV (str "63") calculatedCrc

/-- JS whitespace characters relevant to `parseInt` (ASCII set). -/
def jsWhitespace (c : Char) : Bool :=
  c = ' ' ∨ c = Char.ofNat 9 ∨ c = Char.ofNat 10 ∨ c = Char.ofNat 11 ∨
    c = Char.ofNat 12 ∨ c = Char.ofNat 13

/-- Numeric value of a list of decimal digit characters. -/
def digitsVal (ds : Str) : Nat := ds.foldl (fun a c => 10 * a + (c.toNat - 48)) 0

/-- Longest prefix of decimal digits. -/
def leadDigits (s : Str) : Str := s.takeWhile Char.isDigit

/-- JS `parseInt(s, 10)`: skip whitespace, optional sign, then the longest
digit prefix; `none` models `NaN`. -/
def jsParseInt (s : Str) : Option Int :=
  let t := s.dropWhile jsWhitespace
  match t with
  | '-' :: r => if leadDigits r = [] then none else some (-(digitsVal (leadDigits r) : Int))
  | '+' :: r => if leadDigits r = [] then none else some ((digitsVal (leadDigits r) : Int))
  | _ => if leadDigits t = [] then none else some ((digitsVal (leadDigits t) : Int))

/-- JS `String.prototype.substring(a, b)`: clamp both indices to
`[0, length]` and swap them when `a > b`. -/
def jsSubstring (s : Str) (a b : Int) : Str :=
  let n : Int := s.length
  let a2 := min (max a 0) n
  let b2 := min (max b 0) n
  let lo := min a2 b2
  let hi := max a2 b2
  (s.take hi.toNat).drop lo.toNat

/-- Result object of source `parseTLV`. -/
structure TLVRes where
  tag : Str
  len : Int
  value : Str
  nextIndex : Int
deriving DecidableEq

/-- Source `parseTLV`: header guard, 2-char tag, 2-char length header fed
to `parseInt`, `NaN` and overrun checks, then the value slice. -/
def parseTLV (data : Str) (startIndex : Int) : Option TLVRes :=
  if startIndex ≥ (data.length : Int) - 3 then none
  else
    let tag := jsSubstring data startIndex (startIndex + 2)
    let lengthStr := jsSubstring data (startIndex + 2) (startIndex + 4)
    match jsParseInt lengthStr with
    | none => none
    | some length =>
      if startIndex + 4 + length > (data.length : Int) then none
      else
        some ⟨tag, length, jsSubstring data (startIndex + 4) (startIndex + 4 + length),
          startIndex + 4 + length⟩

/-- The `while (index < data.length)` walk shared by `parseSubTLVs` and
`parseQrString`: parse one TLV, stop on `null`, otherwise dispatch the
(tag, value) pair into the accumulator and continue at `nextIndex`.
`none` records fuel exhaustion (the source loop would still be running). -/
def parseLoop {σ : Type} (data : Str) (step : σ → Str → Str → σ) :
    Nat → Int → σ → Option σ
  | 0, _, _ => none
  | fuel + 1, index, st =>
    if index < (data.length : Int) then
      match parseTLV data index with
      | none => some st
      | some r => parseLoop data step fuel r.nextIndex (step st r.tag r.value)
    else some st

/-- The string-keyed object accumulated by `parseSubTLVs`. -/
def SubMap : Type := Str → Option Str

/-- The empty object literal. -/
def emptySubMap : SubMap := fun _ => none

/-- JS property assignment `m[k] = v` (last write wins). -/
def subMapInsert (m : SubMap) (k v : Str) : SubMap :=
  fun k2 => if k2 = k then some v else m k2

/-- Loop body of `parseSubTLVs`: `subTlvs[parsed.tag] = parsed.value`. -/
def subStep (m : SubMap) (tag value : Str) : SubMap := subMapInsert m tag value

/-- Fuel-indexed `parseSubTLVs`. -/
def parseSubTLVsF (fuel : Nat) (data : Str) : Option SubMap :=
  parseLoop data subStep fuel 0 emptySubMap

/-- Source `parseSubTLVs` (fuel `data.length + 8` covers every
terminating run of the source loop, see the header comment). -/
def parseSubTLVs (data : Str) : SubMap :=
  Option.getD (parseSubTLVsF (data.length + 8) data) emptySubMap

/-- JS `x || ""` for an optional string `x`. -/
def jsOr (o : Option Str) (d : Str) : Str :=
  match o with
  | some v => if v = [] then d else v
  | none => d

/-- The `parsedData : Partial<EmvoQrData>` object of `parseQrString`:
each scalar field is present only once its tag has been seen;
`additionalData` is initialized eagerly to empty strings. -/
structure ParsedData where
  payloadFormatIndicator : Option Str
  pointOfInitiationMethod : Option Str
  merchantAccountInfo : Option Str
  merchantId : Option Str
  merchantCategoryCode : Option Str
  transactionCurrency : Option Str
  countryCode : Option Str
  merchantName : Option Str
  merchantCity : Option Str
  additionalData : AdditionalData
  crc : Option Str

/-- Initial `parsedData` value. -/
def initParsed : ParsedData :=
  ⟨none, none, none, none, none, none, none, none, none, ⟨[], [], []⟩, none⟩

/-- The `switch (parsed.tag)` dispatch of `parseQrString`; tags outside
the ten cases fall through and leave the accumulator unchanged. -/
def qrStep (pd : ParsedData) (tag value : Str) : ParsedData :=
  if tag = str "00" then { pd with payloadFormatIndicator := some value }
  else if tag = str "01" then { pd with pointOfInitiationMethod := some value }
  else if tag = str "44" then
    let m := parseSubTLVs value
    { pd with
      merchantAccountInfo := some value
      merchantId := some (jsOr (m (str "00")) []) }
  else if tag = str "52" then { pd with merchantCategoryCode := some value }
  else if tag = str "53" then { pd with transactionCurrency := some value }
  else if tag = str "58" then { pd with countryCode := some value }
  else if tag = str "59" then { pd with merchantName := some value }
  else if tag = str "60" then { pd with merchantCity := some value }
  else if tag = str "64" then
    let m := parseSubTLVs value
    { pd with additionalData :=
      ⟨jsOr (m (str "00")) [], jsOr (m (str "01")) [], jsOr (m (str "02")) []⟩ }
  else if tag = str "63" then { pd with crc := some value }
  else pd

/-- The final `setFormData(prev => ({...prev, ...parsedData,
additionalData: parsedData.additionalData || prev.additionalData}))`
merge: a field present in `parsedData` overrides, an absent one keeps the
previous value; `parsedData.additionalData` is always an object (truthy),
so `additionalData` is always taken from `parsedData`. -/
def mergeParsed (prev : EmvoQrData) (pd : ParsedData) : EmvoQrData :=
  { payloadFormatIndicator := pd.payloadFormatIndicator.getD prev.payloadFormatIndicator
    pointOfInitiationMethod := pd.pointOfInitiationMethod.getD prev.pointOfInitiationMethod
    merchantAccountInfo := pd.merchantAccountInfo.getD prev.merchantAccountInfo
    merchantId := pd.merchantId.getD prev.merchantId
    merchantCategoryCode := pd.merchantCategoryCode.getD prev.merchantCategoryCode
    transactionCurrency := pd.transactionCurrency.getD prev.transactionCurrency
    countryCode := pd.countryCode.getD prev.countryCode
    merchantName := pd.merchantName.getD prev.merchantName
    merchantCity := pd.merchantCity.getD prev.merchantCity
    additionalData := pd.additionalData
    crc := pd.crc.getD prev.crc }

/-- Fuel-indexed `parseQrString`. -/
def parseQrStringF (fuel : Nat) (prev : EmvoQrData) (input : Str) : Option EmvoQrData :=
  (parseLoop input qrStep fuel 0 initParsed).map (mergeParsed prev)

/-- Source `parseQrString` as a function of the previous form state and
the input (fuel `input.length + 8` covers every terminating run). -/
def parseQrString (prev : EmvoQrData) (input : Str) : EmvoQrData :=
  (parseQrStringF (input.length + 8) prev input).getD prev

/-- The initial `formData` of the component (the concrete scenario used
by the spec, with the sample Korean additional data). -/
def sampleRecord : EmvoQrData :=
  { payloadFormatIndicator := str "01"
    pointOfInitiationMethod := str "11"
    merchantAccountInfo := str "0018com.konai.konacard0115410790020044601"
    merchantId := str "com.konai.konacard"
    merchantCategoryCode := str "3001"
    transactionCurrency := str "410"
    countryCode := str "KR"
    merchantName := str "KONA"
    merchantCity := str "KONA"
    additionalData := ⟨str "KO", str "테스트", str "경기도"⟩
    crc := str "A26F" }

/-- Well-formedness of a (tag, value) pair for the two-digit wire format:
two tag characters, a value of at most 99 characters. -/
abbrev wfPair (p : Str × Str) : Prop := p.1.length = 2 ∧ p.2.length ≤ 99

/-- Concatenation of the encodings of a list of (tag, value) pairs. -/
def encodePairs (ps : List (Str × Str)) : Str :=
  (ps.map (fun p => createTLV p.1 p.2)).flatten

/-- The ten tag strings recognized by the `switch` of `parseQrString`. -/
def knownTags : List Str :=
  [str "00", str "01", str "44", str "52", str "53", str "58", str "59",
    str "60", str "64", str "63"]

lemma encodePairs_nil : encodePairs [] = [] := rfl

lemma encodePairs_cons (p : Str × Str) (ps : List (Str × Str)) :
    encodePairs (p :: ps) = createTLV p.1 p.2 ++ encodePairs ps := rfl

lemma formatLength_eq_digits (n : Nat) (h : n ≤ 99) :
    formatLength n = [digitChar (n / 10), digitChar (n % 10)] := by
  interval_cases n <;> rfl

lemma formatLength_length (n : Nat) (h : n ≤ 99) : (formatLength n).length = 2 := by
  rw [formatLength_eq_digits n h]; rfl

lemma two_le_formatLength_length (n : Nat) : 2 ≤ (formatLength n).length := by
  unfold formatLength padStart
  rw [List.length_append, List.length_replicate]
  omega

lemma jsParseInt_formatLength (n : Nat) (h : n ≤ 99) :
    jsParseInt (formatLength n) = some (n : Int) := by
  interval_cases n <;> rfl

lemma createTLV_length (t v : Str) (ht : t.length = 2) (hv : v.length ≤ 99) :
    (createTLV t v).length = 4 + v.length := by
  unfold createTLV getEmvoLength
  rw [List.length_append, List.length_append, ht, formatLength_length v.length hv]

lemma jsSubstring_nat (s : Str) (a b : Nat) (hab : a ≤ b) (hb : b ≤ s.length) :
    jsSubstring s (a : Int) (b : Int) = (s.drop a).take (b - a) := by
  unfold jsSubstring
  have ha0 : max (a : Int) 0 = (a : Int) := max_eq_left (Int.ofNat_nonneg a)
  have hb0 : max (b : Int) 0 = (b : Int) := max_eq_left (Int.ofNat_nonneg b)
  have han : min (a : Int) (s.length : Int) = (a : Int) := by
    apply min_eq_left; exact_mod_cast le_trans hab hb
  have hbn : min (b : Int) (s.length : Int) = (b : Int) := by
    apply min_eq_left; exact_mod_cast hb
  have hmin : min (a : Int) (b : Int) = (a : Int) := by
    apply min_eq_left; exact_mod_cast hab
  have hmax : max (a : Int) (b : Int) = (b : Int) := by
    apply max_eq_right; exact_mod_cast hab
  simp only [ha0, hb0, han, hbn, hmin, hmax, Int.toNat_ofNat]
  exact List.drop_take b a s

lemma parseTLV_encode (pre t v rest : Str) (ht : t.length = 2) (hv : v.length ≤ 99) :
    parseTLV (pre ++ (createTLV t v ++ rest)) ((pre.length : Nat) : Int) =
      some ⟨t, (v.length : Int), v,
        ((pre.length : Nat) : Int) + 4 + ((v.length : Nat) : Int)⟩ := by
  have hct : createTLV t v = t ++ (formatLength v.length ++ v) := by
    simp [createTLV, getEmvoLength, List.append_assoc]
  rw [hct]
  have hfl : (formatLength v.length).length = 2 := formatLength_length _ hv
  have hdlen : ((pre ++ ((t ++ (formatLength v.length ++ v)) ++ rest)) : Str).length
      = pre.length + 4 + v.length + rest.length := by
    simp only [List.length_append, ht, hfl]; omega
  set data : Str := pre ++ ((t ++ (formatLength v.length ++ v)) ++ rest) with hdataDef
  have htag : jsSubstring data ((pre.length : Nat) : Int) (((pre.length : Nat) : Int) + 2) = t := by
    have h2 : ((pre.length : Nat) : Int) + 2 = ((pre.length + 2 : Nat) : Int) := by push_cast; ring
    rw [h2, jsSubstring_nat _ _ _ (by omega) (by omega)]
    have hs : pre.length + 2 - pre.length = 2 := by omega
    rw [hs, hdataDef, List.drop_left]
    have : (t ++ (formatLength v.length ++ v)) ++ rest
        = t ++ ((formatLength v.length ++ v) ++ rest) := by
      simp [List.append_assoc]
    rw [this, ← ht, List.take_left]
  have hlenstr : jsSubstring data
      (((pre.length : Nat) : Int) + 2) (((pre.length : Nat) : Int) + 4)
      = formatLength v.length := by
    have h2 : ((pre.length : Nat) : Int) + 2 = ((pre.length + 2 : Nat) : Int) := by push_cast; ring
    have h4 : ((pre.length : Nat) : Int) + 4 = ((pre.length + 4 : Nat) : Int) := by push_cast; ring
    rw [h2, h4, jsSubstring_nat _ _ _ (by omega) (by omega)]
    have hs : pre.length + 4 - (pre.length + 2) = 2 := by omega
    rw [hs]
    have hsplit : data = (pre ++ t) ++ (formatLength v.length ++ (v ++ rest)) := by
      rw [hdataDef]; simp [List.append_assoc]
    have h5 : pre.length + 2 = ((pre ++ t) : Str).length := by
      rw [List.length_append, ht]
    rw [hsplit, h5, List.drop_left, ← hfl, List.take_left]
  have hval : jsSubstring data
      (((pre.length : Nat) : Int) + 4)
      (((pre.length : Nat) : Int) + 4 + ((v.length : Nat) : Int)) = v := by
    have h4 : ((pre.length : Nat) : Int) + 4 = ((pre.length + 4 : Nat) : Int) := by push_cast; ring
    have h4v : ((pre.length : Nat) : Int) + 4 + ((v.length : Nat) : Int)
        = ((pre.length + 4 + v.length : Nat) : Int) := by push_cast; ring
    rw [h4v, h4, jsSubstring_nat _ _ _ (by omega) (by omega)]
    have hs : pre.length + 4 + v.length - (pre.length + 4) = v.length := by omega
    rw [hs]
    have hsplit : data = ((pre ++ t) ++ formatLength v.length) ++ (v ++ rest) := by
      rw [hdataDef]; simp [List.append_assoc]
    have h5 : pre.length + 4 = (((pre ++ t) ++ formatLength v.length) : Str).length := by
      simp only [List.length_append, ht, hfl]
    rw [hsplit, h5, List.drop_left]
    exact List.take_left v rest
  unfold parseTLV
  rw [if_neg (by rw [hdlen]; push_cast; omega)]
  have hcond : ¬(((pre.length : Nat) : Int) + 4 + ((v.length : Nat) : Int)
      > ((data.length : Nat) : Int)) := by
    rw [hdlen]; push_cast; omega
  simp only [htag, hlenstr, jsParseInt_formatLength v.length hv, hval]
  rw [if_neg hcond]

lemma parseTLV_none_of_short (data : Str) (i : Int) (h : (data.length : Int) ≤ i + 3) :
    parseTLV data i = none := by
  unfold parseTLV
  rw [if_pos (by omega)]

lemma four_mul_le_length_encodePairs (ps : List (Str × Str))
    (hwf : ∀ p ∈ ps, wfPair p) : 4 * ps.length ≤ (encodePairs ps).length := by
  induction ps with
  | nil => simp [encodePairs_nil]
  | cons p ps ih =>
    have hp := hwf p (List.mem_cons_self p ps)
    have hrec := ih (fun q hq => hwf q (List.mem_cons_of_mem p hq))
    rw [encodePairs_cons, List.length_append, createTLV_length p.1 p.2 hp.1 hp.2]
    simp only [List.length_cons]
    omega

lemma parseLoop_encodePairs {σ : Type} (step : σ → Str → Str → σ) :
    ∀ (ps : List (Str × Str)) (pre tail : Str) (st : σ) (fuel : Nat),
      ps.length + 1 ≤ fuel →
      (∀ p ∈ ps, wfPair p) →
      (tail = [] ∨ parseTLV (pre ++ (encodePairs ps ++ tail))
          ((pre.length + (encodePairs ps).length : Nat) : Int) = none) →
      parseLoop (pre ++ (encodePairs ps ++ tail)) step fuel ((pre.length : Nat) : Int) st =
        some (ps.foldl (fun s p => step s p.1 p.2) st)
  | [], pre, tail, st, fuel, hfuel, _, hend => by
    obtain ⟨f, rfl⟩ : ∃ f, fuel = f + 1 := ⟨fuel - 1, by omega⟩
    rw [encodePairs_nil, List.nil_append]
    unfold parseLoop
    rcases hend with hend | hend
    · subst hend
      rw [if_neg (by simp)]
      rfl
    · by_cases hlt : ((pre.length : Nat) : Int) < ((pre ++ tail).length : Int)
      · rw [if_pos hlt]
        rw [encodePairs_nil, List.nil_append] at hend
        simp only [List.length_nil, Nat.add_zero] at hend
        rw [hend]
        rfl
      · rw [if_neg hlt]
        rfl
  | p :: ps, pre, tail, st, fuel, hfuel, hwf, hend => by
    obtain ⟨f, rfl⟩ : ∃ f, fuel = f + 1 := ⟨fuel - 1, by omega⟩
    have hp := hwf p (List.mem_cons_self p ps)
    have hwf2 : ∀ q ∈ ps, wfPair q := fun q hq => hwf q (List.mem_cons_of_mem p hq)
    have hctlen : (createTLV p.1 p.2).length = 4 + p.2.length :=
      createTLV_length p.1 p.2 hp.1 hp.2
    have hshape : pre ++ (encodePairs (p :: ps) ++ tail)
        = pre ++ (createTLV p.1 p.2 ++ (encodePairs ps ++ tail)) := by
      rw [encodePairs_cons]; simp [List.append_assoc]
    have hshape2 : pre ++ (encodePairs (p :: ps) ++ tail)
        = (pre ++ createTLV p.1 p.2) ++ (encodePairs ps ++ tail) := by
      rw [encodePairs_cons]; simp [List.append_assoc]
    have hparse := parseTLV_encode pre p.1 p.2 (encodePairs ps ++ tail) hp.1 hp.2
    unfold parseLoop
    rw [if_pos (by
      rw [hshape2]
      simp only [List.length_append]
      push_cast
      omega)]
    rw [hshape, hparse]
    have hnext : ((pre.length : Nat) : Int) + 4 + ((p.2.length : Nat) : Int)
        = (((pre ++ createTLV p.1 p.2).length : Nat) : Int) := by
      rw [List.length_append, hctlen]; push_cast; ring
    have hfuel2 : ps.length + 1 ≤ f := by
      simp only [List.length_cons] at hfuel; omega
    have hrec := parseLoop_encodePairs step ps (pre ++ createTLV p.1 p.2) tail
      (step st p.1 p.2) f hfuel2 hwf2 (by
        rcases hend with hend | hend
        · exact Or.inl hend
        · refine Or.inr ?_
          rw [← hshape2]
          have hidx : ((pre ++ createTLV p.1 p.2).length + (encodePairs ps).length : Nat)
              = (pre.length + (encodePairs (p :: ps)).length : Nat) := by
            rw [List.length_append, encodePairs_cons, List.length_append]
            omega
          rw [hidx]
          exact hend)
    simp only [hnext]
    rw [← hshape, hshape2]
    rw [hrec]
    rfl

lemma parseLoop_encodePairs_zero {σ : Type} (step : σ → Str → Str → σ)
    (ps : List (Str × Str)) (tail : Str) (st : σ) (fuel : Nat)
    (hfuel : ps.length + 1 ≤ fuel) (hwf : ∀ p ∈ ps, wfPair p)
    (hend : tail = [] ∨ parseTLV (encodePairs ps ++ tail)
      (((encodePairs ps).length : Nat) : Int) = none) :
    parseLoop (encodePairs ps ++ tail) step fuel 0 st =
      some (ps.foldl (fun s p => step s p.1 p.2) st) := by
  have h := parseLoop_encodePairs step ps [] tail st fuel hfuel hwf (by
    rcases hend with hend | hend
    · exact Or.inl hend
    · refine Or.inr ?_
      simpa using hend)
  simpa using h

lemma parseQrString_encodePairs_tail (prev : EmvoQrData) (ps : List (Str × Str))
    (tail : Str) (hwf : ∀ p ∈ ps, wfPair p)
    (hend : tail = [] ∨ parseTLV (encodePairs ps ++ tail)
      (((encodePairs ps).length : Nat) : Int) = none) :
    parseQrString prev (encodePairs ps ++ tail) =
      mergeParsed prev (ps.foldl (fun pd p => qrStep pd p.1 p.2) initParsed) := by
  have hlen := four_mul_le_length_encodePairs ps hwf
  have hfuel : ps.length + 1 ≤ (encodePairs ps ++ tail).length + 8 := by
    rw [List.length_append]; omega
  unfold parseQrString parseQrStringF
  rw [parseLoop_encodePairs_zero qrStep ps tail initParsed _ hfuel hwf hend]
  rfl

lemma parseQrString_encodePairs (prev : EmvoQrData) (ps : List (Str × Str))
    (hwf : ∀ p ∈ ps, wfPair p) :
    parseQrString prev (encodePairs ps) =
      mergeParsed prev (ps.foldl (fun pd p => qrStep pd p.1 p.2) initParsed) := by
  have h := parseQrString_encodePairs_tail prev ps [] hwf (Or.inl rfl)
  simpa using h

lemma parseSubTLVs_encodePairs_tail (ps : List (Str × Str)) (tail : Str)
    (hwf : ∀ p ∈ ps, wfPair p) (htail : tail.length ≤ 3) :
    parseSubTLVs (encodePairs ps ++ tail) =
      ps.foldl (fun m p => subMapInsert m p.1 p.2) emptySubMap := by
  have hlen := four_mul_le_length_encodePairs ps hwf
  have hfuel : ps.length + 1 ≤ (encodePairs ps ++ tail).length + 8 := by
    rw [List.length_append]; omega
  have hend : tail = [] ∨ parseTLV (encodePairs ps ++ tail)
      (((encodePairs ps).length : Nat) : Int) = none := by
    refine Or.inr (parseTLV_none_of_short _ _ ?_)
    rw [List.length_append]; push_cast; omega
  unfold parseSubTLVs parseSubTLVsF
  rw [parseLoop_encodePairs_zero subStep ps tail emptySubMap _ hfuel hwf hend]
  rfl

lemma parseSubTLVs_encodePairs (ps : List (Str × Str))
    (hwf : ∀ p ∈ ps, wfPair p) :
    parseSubTLVs (encodePairs ps) =
      ps.foldl (fun m p => subMapInsert m p.1 p.2) emptySubMap := by
  have h := parseSubTLVs_encodePairs_tail ps [] hwf (by simp)
  simpa using h

lemma jsOr_some_nil (v : Str) : jsOr (some v) [] = v := by
  by_cases h : v = [] <;> simp [jsOr, h]

lemma qrStep_44 (pd : ParsedData) (v : Str) :
    qrStep pd (str "44") v = { pd with
      merchantAccountInfo := some v
      merchantId := some (jsOr (parseSubTLVs v (str "00")) []) } := rfl

lemma qrStep_64 (pd : ParsedData) (v : Str) :
    qrStep pd (str "64") v = { pd with
      additionalData := ⟨jsOr (parseSubTLVs v (str "00")) [],
        jsOr (parseSubTLVs v (str "01")) [], jsOr (parseSubTLVs v (str "02")) []⟩ } := rfl

lemma qrStep_unknown (pd : ParsedData) (t v : Str) (h : t ∉ knownTags) :
    qrStep pd t v = pd := by
  simp only [knownTags, List.mem_cons, List.mem_singleton, not_or] at h
  obtain ⟨h00, h01, h44, h52, h53, h58, h59, h60, h64, h63, -⟩ := h
  simp only [qrStep, if_neg h00, if_neg h01, if_neg h44, if_neg h52, if_neg h53,
    if_neg h58, if_neg h59, if_neg h60, if_neg h64, if_neg h63]

/-- Modelled from the spec text of §4.1 (reference side of claim C4): one
round in plain modular arithmetic — if the top bit (bit 15) of the
accumulator is set, shift left one (i.e. double, reduced mod 2^16) and
XOR the polynomial 0x1021; otherwise just shift, reduced mod 2^16. -/
def crcSpecRound (c : Nat) : Nat :=
  if Nat.testBit c 15 then ((2 * c) % 65536) ^^^ 0x1021 else (2 * c) % 65536

/-- Reference inner loop: eight rounds. -/
def crcSpecRounds : Nat → Nat → Nat
  | 0, c => c
  | j + 1, c => crcSpecRounds j (crcSpecRound c)

/-- Reference byte step: XOR the octet shifted left 8 bits (i.e. times
256) into the accumulator, then eight rounds. -/
def crcSpecByte (c b : Nat) : Nat := crcSpecRounds 8 (c ^^^ (b * 256))

/-- Reference checksum: accumulator initialized to 0xFFFF, folded over
the octets. -/
def checksumSpec (bytes : List Nat) : Nat := bytes.foldl crcSpecByte 0xFFFF

/-- Uppercase hexadecimal digit character. -/
def hexUpper (n : Nat) : Char :=
  if n < 10 then Char.ofNat (48 + n) else Char.ofNat (55 + n)

/-- Reference rendering: exactly four uppercase zero-padded hex digits,
written out nibble by nibble. -/
def renderSpec (c : Nat) : Str :=
  [hexUpper (c / 4096 % 16), hexUpper (c / 256 % 16),
    hexUpper (c / 16 % 16), hexUpper (c % 16)]

lemma and_ffff (x : Nat) : x &&& 0xFFFF = x % 65536 := by
  have h := Nat.and_pow_two_sub_one_eq_mod x 16
  norm_num at h
  exact h

lemma and_8000_iff (c : Nat) : c &&& 0x8000 ≠ 0 ↔ Nat.testBit c 15 := by
  rw [show (0x8000 : Nat) = 2 ^ 15 by norm_num, Nat.and_two_pow]
  cases htb : c.testBit 15 <;> simp

lemma crc16Round_eq_spec (c : Nat) : crc16Round c = crcSpecRound c := by
  unfold crc16Round crcSpecRound
  have hsh : c <<< 1 = 2 * c := by rw [Nat.shiftLeft_eq]; ring
  by_cases h : Nat.testBit c 15
  · rw [if_pos (and_8000_iff c |>.mpr h), if_pos h, hsh,
      Nat.and_xor_distrib_right, and_ffff]
    congr 1
  · rw [if_neg (fun hc => h (and_8000_iff c |>.mp hc)), if_neg h, hsh, and_ffff]

lemma crc16Rounds_eq_spec : ∀ (j c : Nat), crc16Rounds j c = crcSpecRounds j c
  | 0, _ => rfl
  | j + 1, c => by
    show crc16Rounds j (crc16Round c) = crcSpecRounds j (crcSpecRound c)
    rw [crc16Round_eq_spec, crc16Rounds_eq_spec j _]

lemma crc16Byte_eq_spec (c b : Nat) : crc16Byte c b = crcSpecByte c b := by
  unfold crc16Byte crcSpecByte
  rw [Nat.shiftLeft_eq, crc16Rounds_eq_spec]

lemma crc16Loop_eq_spec : ∀ (bytes : List Nat) (c : Nat),
    crc16Loop c bytes = bytes.foldl crcSpecByte c
  | [], _ => rfl
  | b :: bs, c => by
    unfold crc16Loop at *
    simp only [List.foldl_cons, crc16Byte_eq_spec]
    exact crc16Loop_eq_spec bs _

lemma crc16Round_lt (c : Nat) : crc16Round c < 65536 := by
  unfold crc16Round
  by_cases h : c &&& 0x8000 ≠ 0
  · rw [if_pos h, and_ffff]; exact Nat.mod_lt _ (by norm_num)
  · rw [if_neg h, and_ffff]; exact Nat.mod_lt _ (by norm_num)

lemma crc16Rounds_lt : ∀ (j c : Nat), 1 ≤ j → crc16Rounds j c < 65536
  | 1, c, _ => crc16Round_lt c
  | j + 2, c, _ => crc16Rounds_lt (j + 1) (crc16Round c) (by omega)

lemma crc16Byte_lt (c b : Nat) : crc16Byte c b < 65536 :=
  crc16Rounds_lt 8 _ (by norm_num)

lemma crc16Loop_lt : ∀ (bytes : List Nat) (c : Nat), c < 65536 →
    crc16Loop c bytes < 65536
  | [], _, h => h
  | b :: bs, c, _ => crc16Loop_lt bs (crc16Byte c b) (crc16Byte_lt c b)

lemma natToBaseAux_small (fuel n : Nat) (h : n < 16) :
    natToBaseAux 16 fuel n = [digitChar n] := by
  cases fuel with
  | zero => rfl
  | succ f => simp [natToBaseAux, if_pos h]

lemma natToBaseAux_len : ∀ (fuel k n : Nat), 1 ≤ k → n < 16 ^ k →
    (natToBaseAux 16 fuel n).length ≤ k
  | 0, k, n, hk, _ => by simp [natToBaseAux]; omega
  | fuel + 1, k, n, hk, hn => by
    by_cases h : n < 16
    · rw [natToBaseAux_small _ _ h]; simpa using hk
    · have hk2 : 2 ≤ k := by
        by_contra hc
        have : k = 1 := by omega
        subst this
        simp at hn
        omega
      have hdiv : n / 16 < 16 ^ (k - 1) := by
        rw [Nat.div_lt_iff_lt_mul (by norm_num)]
        calc n < 16 ^ k := hn
        _ = 16 ^ (k - 1) * 16 := by
            rw [← Nat.pow_succ]
            congr 1
            omega
      have hrec := natToBaseAux_len fuel (k - 1) (n / 16) (by omega) hdiv
      simp only [natToBaseAux, if_neg h, List.length_append, List.length_singleton]
      omega

lemma natToBase16_len (c : Nat) (h : c < 65536) : (natToBase 16 c).length ≤ 4 := by
  unfold natToBase
  exact natToBaseAux_len c 4 c (by norm_num) (by norm_num; omega)

lemma renderCRC_length (c : Nat) (h : c < 65536) : (renderCRC c).length = 4 := by
  have hlen := natToBase16_len c h
  unfold renderCRC padStart
  rw [List.length_append, List.length_replicate, List.length_map]
  omega

lemma calculateCRC16Bytes_length (bytes : List Nat) :
    (calculateCRC16Bytes bytes).length = 4 :=
  renderCRC_length _ (crc16Loop_lt bytes 0xFFFF (by norm_num))

lemma calculateCRC16_length (s : Str) : (calculateCRC16 s).length = 4 :=
  calculateCRC16Bytes_length _

lemma natToBaseAux_step (fuel n : Nat) (h : 16 ≤ n) :
    natToBaseAux 16 (fuel + 1) n
      = natToBaseAux 16 fuel (n / 16) ++ [digitChar (n % 16)] := by
  simp [natToBaseAux, if_neg (by omega : ¬ n < 16)]

lemma natToBase16_one (c : Nat) (h : c < 16) : natToBase 16 c = [digitChar c] :=
  natToBaseAux_small c c h

lemma natToBase16_two (c : Nat) (h1 : 16 ≤ c) (h2 : c < 256) :
    natToBase 16 c = [digitChar (c / 16), digitChar (c % 16)] := by
  obtain ⟨m, rfl⟩ : ∃ m, c = m + 1 := ⟨c - 1, by omega⟩
  have hdiv : (m + 1) / 16 < 16 := by
    rw [Nat.div_lt_iff_lt_mul (by norm_num)]; omega
  unfold natToBase
  rw [natToBaseAux_step m (m + 1) h1, natToBaseAux_small m _ hdiv]
  rfl

lemma natToBase16_three (c : Nat) (h1 : 256 ≤ c) (h2 : c < 4096) :
    natToBase 16 c = [digitChar (c / 256), digitChar (c / 16 % 16), digitChar (c % 16)] := by
  obtain ⟨m, rfl⟩ : ∃ m, c = m + 2 := ⟨c - 2, by omega⟩
  have hdiv1 : 16 ≤ (m + 2) / 16 := by
    rw [Nat.le_div_iff_mul_le (by norm_num)]; omega
  have hdiv2 : (m + 2) / 16 / 16 < 16 := by
    rw [Nat.div_div_eq_div_mul, Nat.div_lt_iff_lt_mul (by norm_num)]; omega
  unfold natToBase
  rw [natToBaseAux_step (m + 1) (m + 2) (by omega),
    natToBaseAux_step m ((m + 2) / 16) hdiv1, natToBaseAux_small m _ hdiv2,
    Nat.div_div_eq_div_mul]
  rfl

lemma natToBase16_four (c : Nat) (h1 : 4096 ≤ c) (h2 : c < 65536) :
    natToBase 16 c = [digitChar (c / 4096), digitChar (c / 256 % 16),
      digitChar (c / 16 % 16), digitChar (c % 16)] := by
  obtain ⟨m, rfl⟩ : ∃ m, c = m + 3 := ⟨c - 3, by omega⟩
  have hdiv1 : 16 ≤ (m + 3) / 16 := by
    rw [Nat.le_div_iff_mul_le (by norm_num)]; omega
  have hdiv2 : 16 ≤ (m + 3) / 16 / 16 := by
    rw [Nat.div_div_eq_div_mul, Nat.le_div_iff_mul_le (by norm_num)]; omega
  have hdiv3 : (m + 3) / 16 / 16 / 16 < 16 := by
    rw [Nat.div_div_eq_div_mul, Nat.div_div_eq_div_mul,
      Nat.div_lt_iff_lt_mul (by norm_num)]; omega
  unfold natToBase
  rw [natToBaseAux_step (m + 2) (m + 3) (by omega),
    natToBaseAux_step (m + 1) ((m + 3) / 16) hdiv1,
    natToBaseAux_step m ((m + 3) / 16 / 16) hdiv2,
    natToBaseAux_small m _ hdiv3,
    Nat.div_div_eq_div_mul, Nat.div_div_eq_div_mul, Nat.div_div_eq_div_mul]
  norm_num

lemma jsUpper_digitChar (d : Nat) (h : d < 16) : jsToUpper (digitChar d) = hexUpper d := by
  interval_cases d <;> rfl

lemma renderCRC_eq_renderSpec (c : Nat) (h : c < 65536) : renderCRC c = renderSpec c := by
  have hm16 : c % 16 < 16 := Nat.mod_lt c (by norm_num)
  unfold renderCRC renderSpec padStart
  rcases Nat.lt_or_ge c 16 with h1 | h1
  · rw [natToBase16_one c h1]
    simp only [List.map_cons, List.map_nil]
    have e1 : c / 4096 % 16 = 0 := by rw [Nat.div_eq_of_lt (by omega)]
    have e2 : c / 256 % 16 = 0 := by rw [Nat.div_eq_of_lt (by omega)]
    have e3 : c / 16 % 16 = 0 := by rw [Nat.div_eq_of_lt (by omega)]
    have e4 : c % 16 = c := Nat.mod_eq_of_lt h1
    rw [e1, e2, e3, e4, jsUpper_digitChar c h1]
    rfl
  rcases Nat.lt_or_ge c 256 with h2 | h2
  · rw [natToBase16_two c h1 h2]
    simp only [List.map_cons, List.map_nil]
    have hd : c / 16 < 16 := by rw [Nat.div_lt_iff_lt_mul (by norm_num)]; omega
    have e1 : c / 4096 % 16 = 0 := by rw [Nat.div_eq_of_lt (by omega)]
    have e2 : c / 256 % 16 = 0 := by rw [Nat.div_eq_of_lt (by omega)]
    have e3 : c / 16 % 16 = c / 16 := Nat.mod_eq_of_lt hd
    rw [e1, e2, e3, jsUpper_digitChar (c / 16) hd, jsUpper_digitChar (c % 16) hm16]
    rfl
  rcases Nat.lt_or_ge c 4096 with h3 | h3
  · rw [natToBase16_three c h2 h3]
    simp only [List.map_cons, List.map_nil]
    have hd : c / 256 < 16 := by rw [Nat.div_lt_iff_lt_mul (by norm_num)]; omega
    have hd2 : c / 16 % 16 < 16 := Nat.mod_lt _ (by norm_num)
    have e1 : c / 4096 % 16 = 0 := by rw [Nat.div_eq_of_lt (by omega)]
    have e2 : c / 256 % 16 = c / 256 := Nat.mod_eq_of_lt hd
    rw [e1, e2, jsUpper_digitChar (c / 256) hd, jsUpper_digitChar (c / 16 % 16) hd2,
      jsUpper_digitChar (c % 16) hm16]
    rfl
  · rw [natToBase16_four c h3 h]
    simp only [List.map_cons, List.map_nil]
    have hd : c / 4096 < 16 := by rw [Nat.div_lt_iff_lt_mul (by norm_num)]; omega
    have hd2 : c / 256 % 16 < 16 := Nat.mod_lt _ (by norm_num)
    have hd3 : c / 16 % 16 < 16 := Nat.mod_lt _ (by norm_num)
    have e1 : c / 4096 % 16 = c / 4096 := Nat.mod_eq_of_lt hd
    rw [e1, jsUpper_digitChar (c / 4096) hd, jsUpper_digitChar (c / 256 % 16) hd2,
      jsUpper_digitChar (c / 16 % 16) hd3, jsUpper_digitChar (c % 16) hm16]
    rfl

/-- Claim C4 (confirmed): for every finite byte sequence, the source
CRC accumulator loop (JS bitwise operators, modelled over Nat) agrees
with the CRC-16/CCITT-FALSE reference written in plain modular
arithmetic, and its rendering is exactly four uppercase zero-padded hex
digits; the empty input yields the fixed constant "FFFF". -/
theorem crc16_matches_reference :
    (∀ bytes : List Nat, calculateCRC16Bytes bytes = renderSpec (checksumSpec bytes)) ∧
      calculateCRC16Bytes [] = str "FFFF" := by
  constructor
  · intro bytes
    unfold calculateCRC16Bytes checksumSpec
    rw [crc16Loop_eq_spec]
    exact renderCRC_eq_renderSpec _ (by
      rw [← crc16Loop_eq_spec]
      exact crc16Loop_lt bytes 0xFFFF (by norm_num))
  · decide

/-- Claim C2 (code bug): for merchantId "com.konai.konacard" the source
`generateMerchantAccountInfo` emits the merchant id again under sub-tag
01 (because of `merchantId || "410790020044601"`), so the composite is
"0018com.konai.konacard0118com.konai.konacard" and not the value
"0018com.konai.konacard0115410790020044601" that the spec, the
component's own initial state, and its TLV display table all give. -/
theorem merchantAccountInfo_sample_value :
    generateMerchantAccountInfo (str "com.konai.konacard")
        = str "0018com.konai.konacard0118com.konai.konacard" ∧
      generateMerchantAccountInfo (str "com.konai.konacard")
        ≠ str "0018com.konai.konacard0115410790020044601" := by
  constructor
  · decide
  · decide

/-- Claim C1 counterexample: `createTLV` does not fail on a 100-character
value; it silently emits the three-digit length header "100" (there is
no LengthOverflow anywhere in the source). -/
theorem createTLV_hundred_no_failure :
    createTLV (str "00") (List.replicate 100 'a')
      = str "00100" ++ List.replicate 100 'a' := by
  have h : (List.replicate 100 'a').length = 100 := by simp
  unfold createTLV getEmvoLength
  rw [h]
  rfl

/-- Claim C1 amended: `createTLV` is total and never reports an error; a
99-character value gets the two-digit header "99", while a 100-character
value silently gets the three-digit header "100". -/
theorem createTLV_boundary (t v : Str) :
    (v.length = 99 → createTLV t v = t ++ (str "99" ++ v)) ∧
      (v.length = 100 → createTLV t v = t ++ (str "100" ++ v)) := by
  constructor
  · intro h
    unfold createTLV getEmvoLength
    rw [h, List.append_assoc]
    rfl
  · intro h
    unfold createTLV getEmvoLength
    rw [h, List.append_assoc]
    rfl

/-- Witness for `createTLV_boundary` at concrete 99- and 100-character
values. -/
theorem createTLV_boundary_witness :
    (List.replicate 99 'b').length = 99 ∧
      createTLV (str "01") (List.replicate 99 'b')
        = str "01" ++ (str "99" ++ List.replicate 99 'b') ∧
      (List.replicate 100 'c').length = 100 ∧
      createTLV (str "01") (List.replicate 100 'c')
        = str "01" ++ (str "100" ++ List.replicate 100 'c') :=
  ⟨by simp, (createTLV_boundary (str "01") (List.replicate 99 'b')).1 (by simp),
    by simp, (createTLV_boundary (str "01") (List.replicate 100 'c')).2 (by simp)⟩

/-- Claim C10 counterexample: on input "00-4" the header "-4" is accepted
by `parseInt`, the value slice is the swapped substring (the whole
input), and `nextIndex` equals the start index 0 — the parse succeeds
without advancing the offset. -/
theorem parseTLV_negative_length_no_progress :
    parseTLV (str "00-4") 0 = some ⟨str "00", -4, str "00-4", 0⟩ ∧
      (TLVRes.mk (str "00") (-4) (str "00-4") 0).nextIndex = 0 := by
  constructor
  · decide
  · rfl

/-- Claim C10 amended: a successfully parsed TLV advances the offset
when its parsed length is nonnegative (nextIndex = startIndex + 4 +
length), but a negative two-character header such as "-4" makes
nextIndex equal the start index, and the top-level decode loop then
never terminates: on input "00-4" it exhausts every fuel bound. -/
theorem parseTLV_progress_and_divergence :
    (∀ (data : Str) (i : Int) (r : TLVRes),
        parseTLV data i = some r → 0 ≤ r.len → i < r.nextIndex) ∧
      (∀ (fuel : Nat) (st : ParsedData),
        parseLoop (str "00-4") qrStep fuel 0 st = none) := by
  constructor
  · intro data i r hp hl
    unfold parseTLV at hp
    dsimp only at hp
    split at hp
    · exact absurd hp (by simp)
    · split at hp
      · exact absurd hp (by simp)
      · split at hp
        · exact absurd hp (by simp)
        · rw [Option.some_inj] at hp
          subst hp
          simp only at hl ⊢
          omega
  · intro fuel
    induction fuel with
    | zero => intro st; rfl
    | succ f ih =>
      intro st
      have hstep : parseLoop (str "00-4") qrStep (f + 1) 0 st
          = parseLoop (str "00-4") qrStep f 0 (qrStep st (str "00") (str "00-4")) := by
        simp only [parseLoop]
        rw [if_pos (by decide), show parseTLV (str "00-4") 0
          = some ⟨str "00", -4, str "00-4", 0⟩ from by decide]
      rw [hstep]
      exact ih _

/-- Witness for the progress part of `parseTLV_progress_and_divergence`
at a concrete well-formed TLV. -/
theorem parseTLV_progress_witness :
    (0 : Int) < (TLVRes.mk (str "00") 0 [] 4).nextIndex :=
  (parseTLV_progress_and_divergence.1 (str "0000") 0
    (TLVRes.mk (str "00") 0 [] 4) (by decide) (by decide))

/-- Claim C9 counterexample: the TLV walk also stops silently at a point
where exactly 4 characters remain (remaining input not shorter than a
header): on "58XY" the malformed length header makes `parseTLV` return
null, so the sequence walk stops without any error being reported,
contradicting "stops ... exactly when the remaining input is empty or
shorter than 4 characters". -/
theorem decode_stops_with_four_remaining :
    parseTLV (str "58XY") 0 = none ∧ (str "58XY").length = 4 := by
  constructor
  · decide
  · rfl

/-- Claim C9 amended: the walk stops silently whenever fewer than 4
characters remain past the current offset, and a well-formed sequence
followed by a trailing fragment of at most 3 characters decodes exactly
as the sequence alone (the fragment is dropped, prior parses kept); in
addition the walk also stops silently on a malformed or overlong header
(see the counterexample). -/
theorem decode_trailing_fragment_dropped :
    (∀ (data : Str) (i : Int), (data.length : Int) ≤ i + 3 → parseTLV data i = none) ∧
      (∀ (ps : List (Str × Str)) (garbage : Str), (∀ p ∈ ps, wfPair p) →
        garbage.length ≤ 3 →
        parseSubTLVs (encodePairs ps ++ garbage) = parseSubTLVs (encodePairs ps)) := by
  constructor
  · exact parseTLV_none_of_short
  · intro ps garbage hwf hg
    rw [parseSubTLVs_encodePairs_tail ps garbage hwf hg, parseSubTLVs_encodePairs ps hwf]

/-- Witness for `decode_trailing_fragment_dropped` at concrete inputs. -/
theorem decode_trailing_fragment_witness :
    ((str "ab").length : Int) ≤ 0 + 3 ∧ parseTLV (str "ab") 0 = none ∧
      (∀ p ∈ [(str "00", str "01")], wfPair p) ∧ (str "9").length ≤ 3 ∧
      parseSubTLVs (encodePairs [(str "00", str "01")] ++ str "9")
        = parseSubTLVs (encodePairs [(str "00", str "01")]) :=
  ⟨by decide, decode_trailing_fragment_dropped.1 (str "ab") 0 (by decide),
    by decide, by decide,
    decode_trailing_fragment_dropped.2 [(str "00", str "01")] (str "9")
      (by decide) (by decide)⟩

/-- Claim C5 counterexample: on "00020158XY" (a good TLV, then a TLV
with the malformed length header "XY") decode does not fail: it returns
a partially populated record — payloadFormatIndicator was taken from
the first TLV, everything else keeps the previous state (additionalData
is reset), and no error of any kind is reported. -/
theorem decode_malformed_returns_partial :
    parseQrString sampleRecord (str "00020158XY")
      = { sampleRecord with
          payloadFormatIndicator := str "01"
          additionalData := ⟨[], [], []⟩ } := by
  decide

/-- Claim C5 amended: when the walk reaches a TLV at which `parseTLV`
fails (malformed length header or declared length past the end of the
input), decode stops there silently and returns the record folded from
the TLVs before that point — identical to decoding the well-formed
prefix alone. -/
theorem decode_stops_silently_on_malformed (prev : EmvoQrData)
    (ps : List (Str × Str)) (rest : Str) (hwf : ∀ p ∈ ps, wfPair p)
    (hfail : parseTLV (encodePairs ps ++ rest)
      (((encodePairs ps).length : Nat) : Int) = none) :
    parseQrString prev (encodePairs ps ++ rest) = parseQrString prev (encodePairs ps) := by
  rw [parseQrString_encodePairs_tail prev ps rest hwf (Or.inr hfail),
    parseQrString_encodePairs prev ps hwf]

/-- Witness for `decode_stops_silently_on_malformed`: "58XY" is a
failing continuation (malformed header), "5810AB" another one
(truncated value: declared length 10 with 2 characters left). -/
theorem decode_stops_silently_witness :
    parseTLV (encodePairs [(str "00", str "01")] ++ str "58XY")
        (((encodePairs [(str "00", str "01")]).length : Nat) : Int) = none ∧
      parseQrString sampleRecord (encodePairs [(str "00", str "01")] ++ str "58XY")
        = parseQrString sampleRecord (encodePairs [(str "00", str "01")]) ∧
      parseTLV (encodePairs [(str "00", str "01")] ++ str "5810AB")
        (((encodePairs [(str "00", str "01")]).length : Nat) : Int) = none ∧
      parseQrString sampleRecord (encodePairs [(str "00", str "01")] ++ str "5810AB")
        = parseQrString sampleRecord (encodePairs [(str "00", str "01")]) :=
  ⟨by decide,
    decode_stops_silently_on_malformed sampleRecord _ _ (by decide) (by decide),
    by decide,
    decode_stops_silently_on_malformed sampleRecord _ _ (by decide) (by decide)⟩

lemma qrStep_merchantName (pd : ParsedData) (t v : Str) (h : t ≠ str "59") :
    (qrStep pd t v).merchantName = pd.merchantName := by
  unfold qrStep
  split_ifs with h1 h2 h3 h4 h5 h6 h7 h8 h9 h10 <;> first | rfl | exact absurd h7 h

lemma foldl_qrStep_merchantName (ps : List (Str × Str)) :
    ∀ pd : ParsedData, (str "59") ∉ ps.map Prod.fst →
      (ps.foldl (fun pd p => qrStep pd p.1 p.2) pd).merchantName = pd.merchantName := by
  induction ps with
  | nil => intro pd _; rfl
  | cons p ps ih =>
    intro pd h
    simp only [List.map_cons, List.mem_cons, not_or] at h
    rw [List.foldl_cons, ih _ h.2]
    exact qrStep_merchantName pd p.1 p.2 (fun he => h.1 he.symm)

/-- Claim C6 counterexample: decode merges the parsed tags into the
previously held record rather than a fresh default-initialized one; the
same input decoded against two different previous records yields two
different results, and a field whose tag is absent (here merchantName)
keeps its previous value instead of a default. -/
theorem decode_depends_on_previous_record :
    (parseQrString { sampleRecord with merchantName := str "Alice" }
        (str "000201")).merchantName = str "Alice" ∧
      (parseQrString { sampleRecord with merchantName := str "Bob" }
        (str "000201")).merchantName = str "Bob" ∧
      parseQrString { sampleRecord with merchantName := str "Alice" } (str "000201")
        ≠ parseQrString { sampleRecord with merchantName := str "Bob" } (str "000201") := by
  refine ⟨by decide, by decide, by decide⟩

/-- Claim C6 amended: decode folds the parsed pairs into the previously
held record, not a fresh one: over any well-formed input whose tags
avoid "59", merchantName keeps its previous value (and likewise for the
other scalar fields by symmetric arguments); only additionalData is
unconditionally replaced — on an input with no tags at all, every other
field keeps the previous record's value while additionalData is reset
to empty strings. -/
theorem decode_merges_into_previous :
    (∀ (prev : EmvoQrData) (ps : List (Str × Str)), (∀ p ∈ ps, wfPair p) →
        (str "59") ∉ ps.map Prod.fst →
        (parseQrString prev (encodePairs ps)).merchantName = prev.merchantName) ∧
      (∀ prev : EmvoQrData, parseQrString prev []
        = { prev with additionalData := ⟨[], [], []⟩ }) := by
  constructor
  · intro prev ps hwf h59
    rw [parseQrString_encodePairs prev ps hwf]
    show ((ps.foldl (fun pd p => qrStep pd p.1 p.2) initParsed).merchantName).getD
      prev.merchantName = prev.merchantName
    rw [foldl_qrStep_merchantName ps initParsed h59]
    rfl
  · intro prev
    rfl

/-- Witness for `decode_merges_into_previous` at a concrete record and
input. -/
theorem decode_merges_witness :
    (∀ p ∈ [(str "00", str "01")], wfPair p) ∧
      (str "59") ∉ [(str "00", str "01")].map Prod.fst ∧
      (parseQrString sampleRecord (encodePairs [(str "00", str "01")])).merchantName
        = sampleRecord.merchantName :=
  ⟨by decide, by decide,
    decode_merges_into_previous.1 sampleRecord [(str "00", str "01")]
      (by decide) (by decide)⟩

/-- Claim C8 (confirmed): a well-formed TLV with a tag outside the ten
recognized ones, inserted anywhere in a well-formed sequence, is skipped
without failing: decode yields exactly the record it yields without
that TLV present. -/
theorem decode_unknown_tag_tolerated (prev : EmvoQrData)
    (ps1 ps2 : List (Str × Str)) (t v : Str)
    (hwf1 : ∀ p ∈ ps1, wfPair p) (hwf2 : ∀ p ∈ ps2, wfPair p)
    (ht : t.length = 2) (hv : v.length ≤ 99) (hunk : t ∉ knownTags) :
    parseQrString prev (encodePairs (ps1 ++ (t, v) :: ps2))
      = parseQrString prev (encodePairs (ps1 ++ ps2)) := by
  have hwfA : ∀ p ∈ ps1 ++ (t, v) :: ps2, wfPair p := by
    intro p hp
    rcases List.mem_append.mp hp with h | h
    · exact hwf1 p h
    · rcases List.mem_cons.mp h with h | h
      · subst h; exact ⟨ht, hv⟩
      · exact hwf2 p h
  have hwfB : ∀ p ∈ ps1 ++ ps2, wfPair p := by
    intro p hp
    rcases List.mem_append.mp hp with h | h
    · exact hwf1 p h
    · exact hwf2 p h
  rw [parseQrString_encodePairs prev _ hwfA, parseQrString_encodePairs prev _ hwfB]
  congr 1
  rw [List.foldl_append, List.foldl_append, List.foldl_cons]
  rw [show qrStep (List.foldl (fun pd p => qrStep pd p.1 p.2) initParsed ps1) t v
    = List.foldl (fun pd p => qrStep pd p.1 p.2) initParsed ps1
    from qrStep_unknown _ t v hunk]

/-- Witness for `decode_unknown_tag_tolerated`: the unknown tag "99"
between two known TLVs. -/
theorem decode_unknown_tag_witness :
    (∀ p ∈ [(str "00", str "01")], wfPair p) ∧
      (∀ p ∈ [(str "59", str "Z")], wfPair p) ∧
      (str "99").length = 2 ∧ (str "xy").length ≤ 99 ∧
      (str "99") ∉ knownTags ∧
      parseQrString sampleRecord
          (encodePairs ([(str "00", str "01")] ++ (str "99", str "xy") :: [(str "59", str "Z")]))
        = parseQrString sampleRecord
          (encodePairs ([(str "00", str "01")] ++ [(str "59", str "Z")])) :=
  ⟨by decide, by decide, by decide, by decide, by decide,
    decode_unknown_tag_tolerated sampleRecord [(str "00", str "01")]
      [(str "59", str "Z")] (str "99") (str "xy")
      (by decide) (by decide) (by decide) (by decide) (by decide)⟩

/-- The body of the QR string before the CRC TLV, exactly as the source
builds `qrWithoutCrc` (same fixed order, left-associated appends). -/
def generateQrBody (fd : EmvoQrData) : Str :=
  createTLV (str "00") fd.payloadFormatIndicator ++
  createTLV (str "01") fd.pointOfInitiationMethod ++
  createTLV (str "44") (generateMerchantAccountInfo fd.merchantId) ++
  createTLV (str "52") fd.merchantCategoryCode ++
  createTLV (str "53") fd.transactionCurrency ++
  createTLV (str "58") fd.countryCode ++
  createTLV (str "59") fd.merchantName ++
  createTLV (str "60") fd.merchantCity ++
  createTLV (str "64") (generateAdditionalDataTLV fd.additionalData)

lemma generateQrString_eq_body (fd : EmvoQrData) :
    generateQrString fd
      = generateQrBody fd
        ++ createTLV (str "63") (calculateCRC16 (generateQrBody fd ++ str "6304")) := rfl

lemma createTLV_63_crc (s : Str) :
    createTLV (str "63") (calculateCRC16 s) = str "6304" ++ calculateCRC16 s := by
  unfold createTLV getEmvoLength
  rw [calculateCRC16_length]
  rfl

/-- Claim C3 (confirmed): `generateQrString` is exactly the nine
top-level TLVs in the fixed order 00, 01, 44 (nested 00 then 01), 52,
53, 58, 59, 60, 64 (nested 00, 01, 02) concatenated into a body,
followed by "63", the length header "04", and the checksum computed
over body ++ "6304"; the checksum string always has exactly 4
characters, which is what justifies the constant header "04". -/
theorem encode_structure (fd : EmvoQrData) :
    generateQrString fd
        = (createTLV (str "00") fd.payloadFormatIndicator ++
           createTLV (str "01") fd.pointOfInitiationMethod ++
           createTLV (str "44")
             (createTLV (str "00") fd.merchantId ++
              createTLV (str "01") (jsOrStr fd.merchantId (str "410790020044601"))) ++
           createTLV (str "52") fd.merchantCategoryCode ++
           createTLV (str "53") fd.transactionCurrency ++
           createTLV (str "58") fd.countryCode ++
           createTLV (str "59") fd.merchantName ++
           createTLV (str "60") fd.merchantCity ++
           createTLV (str "64")
             (createTLV (str "00") fd.additionalData.d00 ++
              createTLV (str "01") fd.additionalData.d01 ++
              createTLV (str "02") fd.additionalData.d02))
          ++ (str "63" ++ str "04")
          ++ calculateCRC16 (generateQrBody fd ++ str "6304") ∧
      (calculateCRC16 (generateQrBody fd ++ str "6304")).length = 4 := by
  constructor
  · rw [generateQrString_eq_body, createTLV_63_crc]
    show generateQrBody fd ++ (str "6304" ++ _) = _
    rw [← List.append_assoc]
    rfl
  · exact calculateCRC16_length _

lemma str_00_length : (str "00").length = 2 := rfl

lemma str_01_length : (str "01").length = 2 := rfl

lemma str_02_length : (str "02").length = 2 := rfl

lemma jsOrStr_length_le (a b : Str) (ha : a.length ≤ 99) (hb : b.length ≤ 99) :
    (jsOrStr a b).length ≤ 99 := by
  unfold jsOrStr
  split_ifs <;> assumption

lemma mai_pairs (mid : Str) :
    generateMerchantAccountInfo mid
      = encodePairs [(str "00", mid), (str "01", jsOrStr mid (str "410790020044601"))] := by
  simp [generateMerchantAccountInfo, encodePairs]

lemma adv_pairs (ad : AdditionalData) :
    generateAdditionalDataTLV ad
      = encodePairs [(str "00", ad.d00), (str "01", ad.d01), (str "02", ad.d02)] := by
  simp [generateAdditionalDataTLV, encodePairs, List.append_assoc]

lemma parseSubTLVs_mai (mid : Str) (hmid : mid.length ≤ 99)
    (hsnd : (jsOrStr mid (str "410790020044601")).length ≤ 99) :
    jsOr (parseSubTLVs (generateMerchantAccountInfo mid) (str "00")) [] = mid := by
  rw [mai_pairs mid, parseSubTLVs_encodePairs _ (by
    intro p hp
    fin_cases hp
    · exact ⟨rfl, hmid⟩
    · exact ⟨rfl, hsnd⟩)]
  show jsOr ((subMapInsert (subMapInsert emptySubMap (str "00") mid) (str "01")
    (jsOrStr mid (str "410790020044601"))) (str "00")) [] = mid
  unfold subMapInsert
  rw [if_neg (by decide), if_pos rfl]
  exact jsOr_some_nil mid

lemma parseSubTLVs_adv (ad : AdditionalData) (h00 : ad.d00.length ≤ 99)
    (h01 : ad.d01.length ≤ 99) (h02 : ad.d02.length ≤ 99) :
    jsOr (parseSubTLVs (generateAdditionalDataTLV ad) (str "00")) [] = ad.d00 ∧
      jsOr (parseSubTLVs (generateAdditionalDataTLV ad) (str "01")) [] = ad.d01 ∧
      jsOr (parseSubTLVs (generateAdditionalDataTLV ad) (str "02")) [] = ad.d02 := by
  rw [adv_pairs ad, parseSubTLVs_encodePairs _ (by
    intro p hp
    fin_cases hp
    · exact ⟨rfl, h00⟩
    · exact ⟨rfl, h01⟩
    · exact ⟨rfl, h02⟩)]
  refine ⟨?_, ?_, ?_⟩
  · show jsOr ((subMapInsert (subMapInsert (subMapInsert emptySubMap
      (str "00") ad.d00) (str "01") ad.d01) (str "02") ad.d02) (str "00")) [] = ad.d00
    unfold subMapInsert
    rw [if_neg (by decide), if_neg (by decide), if_pos rfl]
    exact jsOr_some_nil _
  · show jsOr ((subMapInsert (subMapInsert (subMapInsert emptySubMap
      (str "00") ad.d00) (str "01") ad.d01) (str "02") ad.d02) (str "01")) [] = ad.d01
    unfold subMapInsert
    rw [if_neg (by decide), if_pos rfl]
    exact jsOr_some_nil _
  · show jsOr ((subMapInsert (subMapInsert (subMapInsert emptySubMap
      (str "00") ad.d00) (str "01") ad.d01) (str "02") ad.d02) (str "02")) [] = ad.d02
    unfold subMapInsert
    rw [if_pos rfl]
    exact jsOr_some_nil _

/-- The ten (tag, value) pairs that constitute `generateQrString`. -/
def qrPairs (r : EmvoQrData) : List (Str × Str) :=
  [(str "00", r.payloadFormatIndicator),
   (str "01", r.pointOfInitiationMethod),
   (str "44", generateMerchantAccountInfo r.merchantId),
   (str "52", r.merchantCategoryCode),
   (str "53", r.transactionCurrency),
   (str "58", r.countryCode),
   (str "59", r.merchantName),
   (str "60", r.merchantCity),
   (str "64", generateAdditionalDataTLV r.additionalData),
   (str "63", calculateCRC16 (generateQrBody r ++ str "6304"))]

lemma qrString_eq_encodePairs (r : EmvoQrData) :
    generateQrString r = encodePairs (qrPairs r) := by
  rw [generateQrString_eq_body]
  simp [generateQrBody, encodePairs, qrPairs, List.append_assoc]

lemma foldl_qrPairs (r : EmvoQrData) :
    (qrPairs r).foldl (fun pd p => qrStep pd p.1 p.2) initParsed
      = { payloadFormatIndicator := some r.payloadFormatIndicator
          pointOfInitiationMethod := some r.pointOfInitiationMethod
          merchantAccountInfo := some (generateMerchantAccountInfo r.merchantId)
          merchantId := some (jsOr (parseSubTLVs
            (generateMerchantAccountInfo r.merchantId) (str "00")) [])
          merchantCategoryCode := some r.merchantCategoryCode
          transactionCurrency := some r.transactionCurrency
          countryCode := some r.countryCode
          merchantName := some r.merchantName
          merchantCity := some r.merchantCity
          additionalData := ⟨jsOr (parseSubTLVs
              (generateAdditionalDataTLV r.additionalData) (str "00")) [],
            jsOr (parseSubTLVs (generateAdditionalDataTLV r.additionalData) (str "01")) [],
            jsOr (parseSubTLVs (generateAdditionalDataTLV r.additionalData) (str "02")) []⟩
          crc := some (calculateCRC16 (generateQrBody r ++ str "6304")) } := rfl

lemma generateQrString_congr (a b : EmvoQrData)
    (h1 : a.payloadFormatIndicator = b.payloadFormatIndicator)
    (h2 : a.pointOfInitiationMethod = b.pointOfInitiationMethod)
    (h3 : a.merchantId = b.merchantId)
    (h4 : a.merchantCategoryCode = b.merchantCategoryCode)
    (h5 : a.transactionCurrency = b.transactionCurrency)
    (h6 : a.countryCode = b.countryCode)
    (h7 : a.merchantName = b.merchantName)
    (h8 : a.merchantCity = b.merchantCity)
    (h9 : a.additionalData = b.additionalData) :
    generateQrString a = generateQrString b := by
  unfold generateQrString generateMerchantAccountInfo generateAdditionalDataTLV
  rw [h1, h2, h3, h4, h5, h6, h7, h8, h9]

/-- Claim C7 (confirmed): for a record whose every field — the scalar
fields, the additional-data sub-fields, and the two computed composite
values — is at most 99 characters long, decoding the encoded string
(into any previous form state) and re-encoding reproduces the encoded
string byte for byte. -/
theorem decode_encode_roundtrip (r prev : EmvoQrData)
    (h1 : r.payloadFormatIndicator.length ≤ 99)
    (h2 : r.pointOfInitiationMethod.length ≤ 99)
    (h3 : r.merchantId.length ≤ 99)
    (h4 : r.merchantCategoryCode.length ≤ 99)
    (h5 : r.transactionCurrency.length ≤ 99)
    (h6 : r.countryCode.length ≤ 99)
    (h7 : r.merchantName.length ≤ 99)
    (h8 : r.merchantCity.length ≤ 99)
    (h9 : r.additionalData.d00.length ≤ 99)
    (h10 : r.additionalData.d01.length ≤ 99)
    (h11 : r.additionalData.d02.length ≤ 99)
    (hmai : (generateMerchantAccountInfo r.merchantId).length ≤ 99)
    (had : (generateAdditionalDataTLV r.additionalData).length ≤ 99) :
    generateQrString (parseQrString prev (generateQrString r)) = generateQrString r := by
  have hcrc4 : (calculateCRC16 (generateQrBody r ++ str "6304")).length = 4 :=
    calculateCRC16_length _
  have hwf : ∀ p ∈ qrPairs r, wfPair p := by
    intro p hp
    fin_cases hp
    · exact ⟨rfl, h1⟩
    · exact ⟨rfl, h2⟩
    · exact ⟨rfl, hmai⟩
    · exact ⟨rfl, h4⟩
    · exact ⟨rfl, h5⟩
    · exact ⟨rfl, h6⟩
    · exact ⟨rfl, h7⟩
    · exact ⟨rfl, h8⟩
    · exact ⟨rfl, had⟩
    · refine ⟨rfl, ?_⟩
      show (calculateCRC16 (generateQrBody r ++ str "6304")).length ≤ 99
      omega
  have hsnd : (jsOrStr r.merchantId (str "410790020044601")).length ≤ 99 :=
    jsOrStr_length_le _ _ h3 (by decide)
  rw [qrString_eq_encodePairs r, parseQrString_encodePairs prev _ hwf, foldl_qrPairs r,
    ← qrString_eq_encodePairs r]
  apply generateQrString_congr
  · rfl
  · rfl
  · exact parseSubTLVs_mai r.merchantId h3 hsnd
  · rfl
  · rfl
  · rfl
  · rfl
  · rfl
  · obtain ⟨e0, e1, e2⟩ := parseSubTLVs_adv r.additionalData h9 h10 h11
    show AdditionalData.mk _ _ _ = r.additionalData
    rw [e0, e1, e2]

/-- Witness for `decode_encode_roundtrip` at the component's initial
form state (the concrete scenario record). -/
theorem decode_encode_roundtrip_witness :
    sampleRecord.payloadFormatIndicator.length ≤ 99 ∧
      (generateMerchantAccountInfo sampleRecord.merchantId).length ≤ 99 ∧
      (generateAdditionalDataTLV sampleRecord.additionalData).length ≤ 99 ∧
      generateQrString (parseQrString sampleRecord (generateQrString sampleRecord))
        = generateQrString sampleRecord :=
  ⟨by decide, by decide, by decide,
    decode_encode_roundtrip sampleRecord sampleRecord (by decide) (by decide) (by decide)
      (by decide) (by decide) (by decide) (by decide) (by decide) (by decide) (by decide)
      (by decide) (by decide) (by decide)⟩
